import Mathlib

/-!
# BrowserTimer — verification of the tracking engine and session protocol

A shallow embedding of the BrowserTimer native host (`src/native/src`):
the URL-segment tracking tree (`tracker.rs`), the session loader
(`session_loader.rs`) and the message handler (`message_handler.rs`).

Rust `u64` arithmetic is modelled on `Nat` with explicit saturation at
`2^64 - 1` (the source only ever uses `saturating_add` / `saturating_sub`).
Rust `HashMap<String, _>` is modelled as an association list
`List (String × _)` with first-match lookup; iteration order, which the
source leaves unspecified, is the list order.  In-place mutation through
`&mut` references is modelled by explicit state passing.  External
collaborators (the `url` crate's parser, JSON decoding, the filesystem)
are parameters of the functions that use them.
-/

deriving instance DecidableEq for Except

namespace BrowserTimer

/-- `u64::MAX`: saturation bound of the source's `saturating_add`. -/
def U64_MAX : Nat := 2 ^ 64 - 1

/-- Model of `u64::saturating_add`. -/
def satAdd (a b : Nat) : Nat := min (a + b) U64_MAX

/-- Model of `u64::saturating_sub` (on `Nat`, truncated subtraction). -/
def satSub (a b : Nat) : Nat := a - b

/-- `tracker.rs` — `struct TabInstance`. -/
structure TabInstance where
  tab_id : Nat
  time_active : Nat
  last_opened : Option Nat
deriving DecidableEq, Repr

/-- `TabInstance::new(tab_id, timestamp)`. -/
def TabInstance.new (tab_id timestamp : Nat) : TabInstance :=
  ⟨tab_id, 0, some timestamp⟩

/-- `TabInstance::accumulate_time(&mut self, current_time)`:
folds the elapsed active interval into `time_active` and clears
`last_opened`; a no-op when the instance is inactive. -/
def TabInstance.accumulate_time (i : TabInstance) (current_time : Nat) : TabInstance :=
  match i.last_opened with
  | some last_opened =>
      { i with last_opened := none,
               time_active := satAdd i.time_active (satSub current_time last_opened) }
  | none => i

/-- `TabInstance::accumulate_and_reset(&mut self, relative_timestamp)`:
returns the updated instance and the drained total. -/
def TabInstance.accumulate_and_reset (i : TabInstance) (relative_timestamp : Nat) :
    TabInstance × Nat :=
  let i' :=
    match i.last_opened with
    | some last_opened =>
        { i with last_opened := some relative_timestamp,
                 time_active := satAdd i.time_active (satSub relative_timestamp last_opened) }
    | none => i
  ({ i' with time_active := 0 }, i'.time_active)

/-- `TabInstance::is_active`. -/
def TabInstance.is_active (i : TabInstance) : Bool :=
  i.last_opened.isSome

/-- `tracker.rs` — `struct UrlNode` (recursive through the children map,
hence an inductive with an association-list of children). -/
inductive UrlNode where
  | mk (sub_part : String) (aggregate_time : Nat)
       (instances : List TabInstance) (children : List (String × UrlNode))

/-- Field accessor: `sub_part`. -/
def UrlNode.sub_part : UrlNode → String
  | .mk s _ _ _ => s

/-- Field accessor: `aggregate_time`. -/
def UrlNode.aggregate_time : UrlNode → Nat
  | .mk _ a _ _ => a

/-- Field accessor: `instances`. -/
def UrlNode.instances : UrlNode → List TabInstance
  | .mk _ _ i _ => i

/-- Field accessor: `children`. -/
def UrlNode.children : UrlNode → List (String × UrlNode)
  | .mk _ _ _ c => c

/-- Functional update of the `instances` field. -/
def UrlNode.withInstances : UrlNode → List TabInstance → UrlNode
  | .mk s a _ c, i => .mk s a i c

/-- Functional update of the `children` field. -/
def UrlNode.withChildren : UrlNode → List (String × UrlNode) → UrlNode
  | .mk s a i _, c => .mk s a i c

/-- `UrlNode::new(sub_part)`. -/
def UrlNode.new (sub_part : String) : UrlNode :=
  .mk sub_part 0 [] []

@[simp] theorem UrlNode.sub_part_mk (s a i c) : (UrlNode.mk s a i c).sub_part = s := rfl
@[simp] theorem UrlNode.aggregate_time_mk (s a i c) : (UrlNode.mk s a i c).aggregate_time = a := rfl
@[simp] theorem UrlNode.instances_mk (s a i c) : (UrlNode.mk s a i c).instances = i := rfl
@[simp] theorem UrlNode.children_mk (s a i c) : (UrlNode.mk s a i c).children = c := rfl
@[simp] theorem UrlNode.withInstances_mk (s a i c i') :
    (UrlNode.mk s a i c).withInstances i' = .mk s a i' c := rfl
@[simp] theorem UrlNode.withChildren_mk (s a i c c') :
    (UrlNode.mk s a i c).withChildren c' = .mk s a i c' := rfl

theorem UrlNode.withInstances_self (n : UrlNode) : n.withInstances n.instances = n := by
  cases n; rfl

theorem UrlNode.withChildren_self (n : UrlNode) : n.withChildren n.children = n := by
  cases n; rfl

/-- The instance-accumulation loop inside
`UrlNode::accumulate_all_instances`: walks the instance vector in order,
threading the saturating `total_time` and the `active_count` accumulators
exactly as the `for` loop does; returns the updated vector and the final
accumulators. -/
def accumLoop (current_time : Nat) :
    List TabInstance → Nat → Nat → List TabInstance × Nat × Nat
  | [], total_time, active_count => ([], total_time, active_count)
  | i :: rest, total_time, active_count =>
      let active_count' := if i.is_active then active_count + 1 else active_count
      let (i', drained) := i.accumulate_and_reset current_time
      let (rest', total', active') :=
        accumLoop current_time rest (satAdd total_time drained) active_count'
      (i' :: rest', total', active')

/-- `UrlNode::accumulate_all_instances(&mut self, current_time)`:
returns the updated node together with the source's return triple
`(aggregate_time, active_count, instances.len())`. -/
def UrlNode.accumulate_all_instances (n : UrlNode) (current_time : Nat) :
    UrlNode × Nat × Nat × Nat :=
  match n with
  | .mk s a inst ch =>
      let (inst', total_time, active_count) := accumLoop current_time inst 0 0
      let a' := satAdd a total_time
      (.mk s a' inst' ch, a', active_count, inst'.length)

mutual

/-- `Tracker::update_node_times(node, current_time)`: the aggregation
sweep — accumulate this node's instances, then recurse into every child. -/
def update_node_times (current_time : Nat) : UrlNode → UrlNode
  | .mk s a inst ch =>
      let (inst', total_time, _) := accumLoop current_time inst 0 0
      .mk s (satAdd a total_time) inst' (updateChildren current_time ch)

/-- The `for child in node.children.values_mut()` recursion of
`update_node_times`, one child entry at a time. -/
def updateChildren (current_time : Nat) : List (String × UrlNode) → List (String × UrlNode)
  | [] => []
  | (k, c) :: rest => (k, update_node_times current_time c) :: updateChildren current_time rest

end

/-- `tracker.rs` — `struct SerializedUrlNode` (the persisted node shape;
`instances` is optional: `Some` in full snapshots, `None` in pruned ones). -/
inductive SerializedUrlNode where
  | mk (sub_part : String) (aggregate_time : Nat)
       (instances : Option (List TabInstance)) (children : List (String × SerializedUrlNode))

/-- Field accessor: `sub_part`. -/
def SerializedUrlNode.sub_part : SerializedUrlNode → String
  | .mk s _ _ _ => s

/-- Field accessor: `aggregate_time`. -/
def SerializedUrlNode.aggregate_time : SerializedUrlNode → Nat
  | .mk _ a _ _ => a

/-- Field accessor: `instances`. -/
def SerializedUrlNode.instances : SerializedUrlNode → Option (List TabInstance)
  | .mk _ _ i _ => i

/-- Field accessor: `children`. -/
def SerializedUrlNode.children : SerializedUrlNode → List (String × SerializedUrlNode)
  | .mk _ _ _ c => c

mutual

/-- `impl From<&mut UrlNode> for SerializedUrlNode`: the full (instance
carrying) serialization of one node. -/
def toSerializedFull : UrlNode → SerializedUrlNode
  | .mk s a inst ch => .mk s a (some inst) (toSerializedFullChildren ch)

/-- The child-map recursion of `From<&mut UrlNode>`. -/
def toSerializedFullChildren : List (String × UrlNode) → List (String × SerializedUrlNode)
  | [] => []
  | (k, c) :: rest => (k, toSerializedFull c) :: toSerializedFullChildren rest

end

mutual

/-- `SerializedUrlNode::without_instances(node)`: the pruned serialization
of one node (`instances = None` everywhere). -/
def withoutInstances : UrlNode → SerializedUrlNode
  | .mk s a _ ch => .mk s a none (withoutInstancesChildren ch)

/-- The child-map recursion of `without_instances`. -/
def withoutInstancesChildren : List (String × UrlNode) → List (String × SerializedUrlNode)
  | [] => []
  | (k, c) :: rest => (k, withoutInstances c) :: withoutInstancesChildren rest

end

mutual

/-- `SerializedUrlNode::into_url_node(self, fresh_session)`: restore one
node; a fresh session discards instances, otherwise they are restored
verbatim (`unwrap_or_default` on the optional field). -/
def SerializedUrlNode.into_url_node : SerializedUrlNode → Bool → UrlNode
  | .mk s a inst ch, fresh_session =>
      .mk s a (if fresh_session then [] else inst.getD []) (intoUrlNodeChildren ch fresh_session)

/-- The child-map recursion of `into_url_node`. -/
def intoUrlNodeChildren : List (String × SerializedUrlNode) → Bool → List (String × UrlNode)
  | [], _ => []
  | (k, c) :: rest, fresh_session =>
      (k, c.into_url_node fresh_session) :: intoUrlNodeChildren rest fresh_session

end

/-- `tracker.rs` — `struct SerializedSession`. -/
structure SerializedSession where
  session_name : String
  data : List (String × SerializedUrlNode)

/-- `tracker.rs` — `struct Tracker`: the root forest plus the session name. -/
structure Tracker where
  root : List (String × UrlNode)
  session_name : String

/-- `Tracker::new(session_name)`. -/
def Tracker.new (session_name : String) : Tracker :=
  ⟨[], session_name⟩

/-- `Tracker::from_serialized(session_name, data, fresh_session)`. -/
def Tracker.from_serialized (session_name : String)
    (data : List (String × SerializedUrlNode)) (fresh_session : Bool) : Tracker :=
  ⟨data.map (fun kv => (kv.1, kv.2.into_url_node fresh_session)), session_name⟩

/-- `Tracker::serialize_session(&mut self, include_tabs)` at sweep time
`current_time` (the source samples the wall clock here; the timestamp is
a parameter of the embedding).  Both branches first run the aggregation
sweep (`update_node_times`) over every top-level node, so the updated
tracker is returned alongside the snapshot. -/
def Tracker.serialize_session (tr : Tracker) (include_tabs : Bool) (current_time : Nat) :
    Tracker × SerializedSession :=
  let root' := updateChildren current_time tr.root
  let data :=
    if include_tabs then toSerializedFullChildren root'
    else withoutInstancesChildren root'
  (⟨root', tr.session_name⟩, ⟨tr.session_name, data⟩)

/-- `HashMap::get` on the association-list model: first entry with the key. -/
def assocGet (m : List (String × UrlNode)) (k : String) : Option UrlNode :=
  (m.find? (fun kv => kv.1 == k)).map (fun kv => kv.2)

/-- `HashMap::insert` / writing through a map entry: replace the first
entry with the key, or append a new entry when the key is absent. -/
def assocSet : List (String × UrlNode) → String → UrlNode → List (String × UrlNode)
  | [], k, v => [(k, v)]
  | (k', v') :: rest, k, v =>
      if k' = k then (k, v) :: rest else (k', v') :: assocSet rest k v

/-- `Tracker::find_node(&mut self, url_parts)` as a pure lookup: descend
segment by segment, `None` as soon as a segment is absent; the terminal
segment yields the node.  An empty part list yields `None` (the source
falls through its loop and returns `None`). -/
def findAtPath : List String → List (String × UrlNode) → Option UrlNode
  | [], _ => none
  | p :: rest, m =>
      match assocGet m p with
      | some n => if rest.isEmpty then some n else findAtPath rest n.children
      | none => none

/-- The mutation performed through the reference returned by
`Tracker::find_node`: apply `f` to the terminal node of the path.
`none` when the path is not found or `f` itself fails — both surface as
`TabNotFound` in the callers. -/
def tryModifyAtPath (f : UrlNode → Option UrlNode) :
    List String → List (String × UrlNode) → Option (List (String × UrlNode))
  | [], _ => none
  | p :: rest, m =>
      match assocGet m p with
      | some n =>
          if rest.isEmpty then
            (f n).map (fun n' => assocSet m p n')
          else
            (tryModifyAtPath f rest n.children).map
              (fun ch' => assocSet m p (n.withChildren ch'))
      | none => none

/-- The mutation performed through the reference returned by
`Tracker::find_or_create_node`: descend the path, creating missing nodes
with `UrlNode::new` (`entry(..).or_insert_with`), and apply `f` to the
terminal node. -/
def findOrCreateModify (f : UrlNode → UrlNode) :
    List String → List (String × UrlNode) → List (String × UrlNode)
  | [], m => m
  | p :: rest, m =>
      let n := (assocGet m p).getD (UrlNode.new p)
      if rest.isEmpty then assocSet m p (f n)
      else assocSet m p (n.withChildren (findOrCreateModify f rest n.children))

/-- `UrlNode::find_tab_instance` followed by a write through the returned
`&mut TabInstance`: update the first instance with the given `tab_id`;
`none` when no instance has it. -/
def updateFirstInstance (tab_id : Nat) (f : TabInstance → TabInstance) :
    List TabInstance → Option (List TabInstance)
  | [] => none
  | i :: rest =>
      if i.tab_id = tab_id then some (f i :: rest)
      else (updateFirstInstance tab_id f rest).map (fun rest' => i :: rest')

/-- `UrlNode::add_tab_instance(&mut self, tab_id, timestamp)` on the
instance vector: refocus the existing instance if present (only setting
`last_opened` when it is `None`), else push a fresh instance. -/
def addTabInstance (tab_id timestamp : Nat) (l : List TabInstance) : List TabInstance :=
  match updateFirstInstance tab_id
      (fun i => if i.last_opened.isNone then { i with last_opened := some timestamp } else i) l with
  | some l' => l'
  | none => l ++ [TabInstance.new tab_id timestamp]

/-- Model of the external `url` crate's parse result: the pieces
`parse_url_parts` consumes (`host_str()` and `path_segments()`). -/
structure Url where
  host_str : Option String
  path_segments : Option (List String)
deriving DecidableEq

/-- Model of the external `url::ParseError` (only its presence matters). -/
structure UrlParseError where
  msg : String
deriving DecidableEq

/-- `tracker.rs` — `enum TrackerError`. -/
inductive TrackerError where
  | invalidUrl (msg : String)
  | tabNotFound (tab_id : Nat)
  | urlParseError (e : UrlParseError)
deriving DecidableEq

/-- Whether a `TrackerError` is the `InvalidUrl` variant. -/
def TrackerError.isInvalidUrlVariant : TrackerError → Bool
  | .invalidUrl _ => true
  | _ => false

/-- `Tracker::parse_url_parts(url)`, with the external `url::Url::parse`
supplied as the parameter `urlParse`: empty input fails `InvalidUrl`, a
parser failure propagates as `UrlParseError` (`#[from] url::ParseError`),
then the host (if any) is followed by every path segment of length `> 1`;
an empty part list fails `InvalidUrl`. -/
def parse_url_parts (urlParse : String → Except UrlParseError Url) (url : String) :
    Except TrackerError (List String) :=
  if url.isEmpty then .error (.invalidUrl "Empty URL")
  else
    match urlParse url with
    | .error e => .error (.urlParseError e)
    | .ok parsed =>
        let hostPart : List String :=
          match parsed.host_str with
          | some host => [host]
          | none => []
        let segPart : List String :=
          match parsed.path_segments with
          | some segments => segments.filter (fun segment => segment.length > 1)
          | none => []
        let parts := hostPart ++ segPart
        if parts.isEmpty then
          .error (.invalidUrl ("No parseable parts in URL: " ++ url))
        else
          .ok parts

/-- `Tracker::track_tab_focused(&mut self, url, tab_id)` at event time
`timestamp` (the source samples the wall clock; it is a parameter here). -/
def Tracker.track_tab_focused (urlParse : String → Except UrlParseError Url) (tr : Tracker)
    (url : String) (tab_id : Nat) (timestamp : Nat) : Except TrackerError Tracker :=
  match parse_url_parts urlParse url with
  | .error e => .error e
  | .ok url_parts =>
      .ok ⟨findOrCreateModify
            (fun n => n.withInstances (addTabInstance tab_id timestamp n.instances))
            url_parts tr.root,
          tr.session_name⟩

/-- `Tracker::track_tab_unfocused(&mut self, url, tab_id)` at event time
`timestamp`: find the node (else `TabNotFound`), find the instance (else
`TabNotFound`), and fold its pending time via `accumulate_time`. -/
def Tracker.track_tab_unfocused (urlParse : String → Except UrlParseError Url) (tr : Tracker)
    (url : String) (tab_id : Nat) (timestamp : Nat) : Except TrackerError Tracker :=
  match parse_url_parts urlParse url with
  | .error e => .error e
  | .ok url_parts =>
      match tryModifyAtPath
          (fun n => (updateFirstInstance tab_id
              (fun i => i.accumulate_time timestamp) n.instances).map n.withInstances)
          url_parts tr.root with
      | some root' => .ok ⟨root', tr.session_name⟩
      | none => .error (.tabNotFound tab_id)

/-- `tracker.rs` — `struct TrackingData` (one flattened report record). -/
structure TrackingData where
  path : String
  aggregate_time : Nat
  total_instances : Nat
  active_instances : Nat
deriving DecidableEq, Repr

/-- `Tracker::collect_recursive`: walk the sibling map in order; extend
the slash-joined path, sweep the node's instances, emit a record when the
swept aggregate is positive, then recurse into the children before moving
to the next sibling.  Returns the updated (swept) map and the records in
emission order. -/
def collectList (current_time : Nat) (path_buffer : String) :
    List (String × UrlNode) → List (String × UrlNode) × List TrackingData
  | [] => ([], [])
  | (key, .mk s a inst ch) :: rest =>
      let newPath := if path_buffer.isEmpty then key else path_buffer ++ "/" ++ key
      let (inst', total_time, active_count) := accumLoop current_time inst 0 0
      let a' := satAdd a total_time
      let here : List TrackingData :=
        if a' > 0 then [⟨newPath, a', inst'.length, active_count⟩] else []
      let (ch', childData) := collectList current_time newPath ch
      let (rest', restData) := collectList current_time path_buffer rest
      ((key, .mk s a' inst' ch') :: rest', here ++ childData ++ restData)

/-- `Tracker::collect_tracking_data(&mut self, current_time)`: the full
tree sweep-and-flatten starting from an empty path buffer. -/
def Tracker.collect_tracking_data (tr : Tracker) (current_time : Nat) :
    Tracker × List TrackingData :=
  let (root', result) := collectList current_time "" tr.root
  (⟨root', tr.session_name⟩, result)

/-- `std::io::ErrorKind`, restricted to what the host distinguishes. -/
inductive IoErrorKind where
  | unexpectedEof
  | other
deriving DecidableEq

/-- `message_handler.rs` — `enum NativeMessagingError`. -/
inductive NativeMessagingError where
  | ioError (k : IoErrorKind)
  | jsonError
  | invalidLength (length : Nat)
  | messageTooLarge (length : Nat)
  | invalidSessionName (msg : String)
deriving DecidableEq

/-- `NativeMessagingHost::MAX_MESSAGE_SIZE` (1 MiB). -/
def MAX_MESSAGE_SIZE : Nat := 1024 * 1024

/-- `u32::from_le_bytes` on the four header bytes. -/
def le32 (b0 b1 b2 b3 : Nat) : Nat :=
  b0 + 256 * b1 + 65536 * b2 + 16777216 * b3

/-- `NativeMessagingHost::read_message`, over a byte stream modelled as a
list and JSON decoding supplied as the parameter `decode`: read the
4-byte little-endian length header (a short read is an
`Io(UnexpectedEof)` error), reject lengths above `MAX_MESSAGE_SIZE`
(`MessageTooLarge`) and zero lengths (`InvalidLength`), read the body (a
short read is again `Io(UnexpectedEof)`), then decode it.  On success the
decoded message and the remaining stream are returned. -/
def read_message {α : Type} (decode : List Nat → Except Unit α) (stream : List Nat) :
    Except NativeMessagingError (α × List Nat) :=
  match stream with
  | b0 :: b1 :: b2 :: b3 :: rest =>
      let length := le32 b0 b1 b2 b3
      if length > MAX_MESSAGE_SIZE then .error (.messageTooLarge length)
      else if length = 0 then .error (.invalidLength length)
      else if rest.length < length then .error (.ioError .unexpectedEof)
      else
        match decode (rest.take length) with
        | .ok message => .ok (message, rest.drop length)
        | .error _ => .error .jsonError
  | _ => .error (.ioError .unexpectedEof)

/-- The forbidden characters of `verify_session_name`. -/
def invalid_chars : List Char :=
  ['/', '\\', ':', '*', '?', '"', '<', '>', '|', Char.ofNat 0]

/-- `NativeMessagingHost::verify_session_name`: rejects the empty name,
names whose UTF-8 byte length (Rust `str::len`) exceeds 100, and names
containing a forbidden character. -/
def verify_session_name (session_name : String) : Except NativeMessagingError Unit :=
  if session_name.isEmpty then
    .error (.invalidSessionName "Session name cannot be empty")
  else if session_name.utf8ByteSize > 100 then
    .error (.invalidSessionName "Session name is too long. Allowed length: 100 characters")
  else if session_name.data.any (fun c => invalid_chars.contains c) then
    .error (.invalidSessionName "Session name contains invalid characters")
  else
    .ok ()

/-- The JSON payloads the handler ever places in a response `data` field. -/
inductive Json where
  | null
  | dataReport (records : List TrackingData)
  | sessions (names : List String)
  | sessionName (name : String)
deriving DecidableEq

/-- `message_handler.rs` — `struct OutgoingMessage`. -/
structure OutgoingMessage where
  success : Bool
  data : Option Json
  error : Option String
deriving DecidableEq

/-- `OutgoingMessage::success(data)`. -/
def OutgoingMessage.successMsg (data : Option Json) : OutgoingMessage :=
  ⟨true, data, none⟩

/-- `OutgoingMessage::error(error)`. -/
def OutgoingMessage.errorMsg (error : String) : OutgoingMessage :=
  ⟨false, none, some error⟩

/-- `TRACKER_NOT_STARTED`. -/
def TRACKER_NOT_STARTED : String := "Tracker not started"

/-- `NativeMessagingHost::with_tracker_mut(f)`: with no active tracker,
answer the "not started" error; otherwise run `f` on the tracker (the
updated tracker is threaded through explicitly) and turn its result into
a response — note that the source maps `Ok(_)` to `success(None)`,
discarding `f`'s value. -/
def with_tracker_mut {α : Type} (tracker : Option Tracker)
    (f : Tracker → Tracker × Except String α) : Option Tracker × OutgoingMessage :=
  match tracker with
  | some tr =>
      match f tr with
      | (tr', .ok _) => (some tr', .successMsg none)
      | (tr', .error e) => (some tr', .errorMsg e)
  | none => (none, .errorMsg TRACKER_NOT_STARTED)

/-- `OutgoingMessageExt::map_success`: the source ignores its closure and
merely re-wraps an already-present `data` payload. -/
def OutgoingMessage.map_success (m : OutgoingMessage) (_ : Unit → Json) : OutgoingMessage :=
  match m.data with
  | some d => .successMsg (some d)
  | none => m

/-- `NativeMessagingHost::handle_get_data_action` at sweep time
`current_time`: collect the tracking data through `with_tracker_mut`,
then `map_success` with the `\x7b"data": data\x7d` wrapper closure. -/
def handle_get_data_action (tracker : Option Tracker) (current_time : Nat) :
    Option Tracker × OutgoingMessage :=
  let (tracker', response) :=
    with_tracker_mut tracker (fun tr =>
      let (tr', records) := tr.collect_tracking_data current_time
      (tr', .ok records))
  (tracker', response.map_success (fun _ => Json.null))

/-- The two abnormal-termination paths of `NativeMessagingHost::run`. -/
inductive Termination where
  | eof
  | interrupt

/-- The persistence step of `NativeMessagingHost::run` on abnormal
termination at time `current_time`: on a clean end-of-file
(`ErrorKind::UnexpectedEof` from `read_message`) the taken tracker is
saved via `serialize_session(false)`; in the interrupt (`ctrlc`) handler
it is saved via `serialize_session(true)`.  `none` when no tracker is
active (nothing is persisted). -/
def run_termination (tracker : Option Tracker) (term : Termination) (current_time : Nat) :
    Option SerializedSession :=
  match tracker with
  | none => none
  | some tr =>
      match term with
      | .eof => some (tr.serialize_session false current_time).2
      | .interrupt => some (tr.serialize_session true current_time).2

mutual

/-- Every node of a serialized tree has `instances = None` (pruned). -/
def serializedNodePruned : SerializedUrlNode → Bool
  | .mk _ _ inst ch => inst.isNone && serializedChildrenPruned ch

/-- `serializedNodePruned` over a child map. -/
def serializedChildrenPruned : List (String × SerializedUrlNode) → Bool
  | [] => true
  | (_, c) :: rest => serializedNodePruned c && serializedChildrenPruned rest

end

mutual

/-- Every node of a serialized tree has `instances = Some _` (full). -/
def serializedNodeFull : SerializedUrlNode → Bool
  | .mk _ _ inst ch => inst.isSome && serializedChildrenFull ch

/-- `serializedNodeFull` over a child map. -/
def serializedChildrenFull : List (String × SerializedUrlNode) → Bool
  | [] => true
  | (_, c) :: rest => serializedNodeFull c && serializedChildrenFull rest

end

/-- A snapshot is pruned when every node of every tree in it is. -/
def sessionPruned (s : SerializedSession) : Bool :=
  serializedChildrenPruned s.data

/-- A snapshot is full when every node of every tree in it is. -/
def sessionFull (s : SerializedSession) : Bool :=
  serializedChildrenFull s.data

/-- `session_loader.rs` — `enum PersistenceError` (the `Io` and
`JsonSerialization` payloads are reduced to the message text). -/
inductive PersistenceError where
  | ioFailure (msg : String)
  | jsonSerialization (msg : String)
  | sessionNotFound (name : String)
deriving DecidableEq

/-- Whether a `PersistenceError` is the `SessionNotFound` variant. -/
def PersistenceError.isSessionNotFound : PersistenceError → Bool
  | .sessionNotFound _ => true
  | _ => false

/-- Whether a `PersistenceError` is the `JsonSerialization` variant. -/
def PersistenceError.isJsonSerialization : PersistenceError → Bool
  | .jsonSerialization _ => true
  | _ => false

/-- What a stored session file decodes to: either a well-formed
`SerializedSession` or text that fails JSON decoding. -/
inductive FileContent where
  | session (s : SerializedSession)
  | malformed

/-- The session directory, modelled as a map from session name to the
decoded content of `<name>.json` (absent file = `none`); file existence
and JSON decoding are the external collaborators of `load_session`. -/
def FileStore : Type := String → Option FileContent

/-- The name-mismatch error text of `load_session`. -/
def sessionMismatchMsg (requested found : String) : String :=
  "Session name mismatch: expected '" ++ requested ++ "', found '" ++ found
    ++ "'. If loading from a backup, rename the file to match the session name."

/-- `SessionLoader::load_session(session_name)`: `SessionNotFound` when
the file is absent; a `JsonSerialization` error when it does not decode
or when the decoded session's embedded name differs from the requested
one; otherwise the stored snapshot. -/
def load_session (fs : FileStore) (session_name : String) :
    Except PersistenceError SerializedSession :=
  match fs session_name with
  | none => .error (.sessionNotFound session_name)
  | some .malformed => .error (.jsonSerialization "JSON decode failure")
  | some (.session s) =>
      if s.session_name ≠ session_name then
        .error (.jsonSerialization (sessionMismatchMsg session_name s.session_name))
      else
        .ok s

/-! ## Concrete example objects used by witnesses and counterexamples -/

/-- Model of the external `url::Url::parse` on the inputs the spec's
test scenarios exercise: `https://example.com/a/b` has host
`example.com` and path segments `a`, `b`; `https://example.com` has the
normalized path `/`, i.e. one empty segment; every other input (such as
`not-a-url`, a relative URL without a base) fails to parse. -/
def urlParseExample : String → Except UrlParseError Url := fun s =>
  if s = "https://example.com/a/b" then .ok ⟨some "example.com", some ["a", "b"]⟩
  else if s = "https://example.com" then .ok ⟨some "example.com", some [""]⟩
  else .error ⟨"relative URL without a base"⟩

/-- The tracker produced by `track_tab_focused("https://example.com/a/b", 1)`
on a fresh `work` session at time `0`. -/
def exTracker : Tracker :=
  ⟨[("example.com", .mk "example.com" 0 [⟨1, 0, some 0⟩] [])], "work"⟩

/-- A tracker holding a single already-unfocused (inactive) instance. -/
def exTrackerInactive : Tracker :=
  ⟨[("example.com", .mk "example.com" 3 [⟨1, 7, none⟩] [])], "work"⟩

/-! ## Saturating-arithmetic helper lemmas -/

theorem satAdd_le_max (a b : Nat) : satAdd a b ≤ U64_MAX :=
  Nat.min_le_right _ _

theorem satAdd_zero_right (a : Nat) (h : a ≤ U64_MAX) : satAdd a 0 = a := by
  simp [satAdd, Nat.min_eq_left h]

theorem satAdd_zero_zero : satAdd 0 0 = 0 := by
  simp [satAdd]

theorem satAdd_zero_left (b : Nat) (h : b ≤ U64_MAX) : satAdd 0 b = b := by
  simp [satAdd, Nat.min_eq_left h]

/-! ## The aggregation sweep: helper lemmas -/

/-- An instance is in swept form for timestamp `t`: its pending bucket is
flushed and, when active, its `last_opened` was reset to `t`. -/
def sweptAt (t : Nat) (i : TabInstance) : Prop :=
  i.time_active = 0 ∧ (i.last_opened = none ∨ i.last_opened = some t)

theorem accumulate_and_reset_swept (t : Nat) (i : TabInstance) :
    sweptAt t (i.accumulate_and_reset t).1 := by
  rcases i with ⟨tab, ta, lo⟩
  rcases lo with _ | lo <;>
    simp [TabInstance.accumulate_and_reset, sweptAt]

theorem accumulate_and_reset_of_swept (t : Nat) (i : TabInstance) (h : sweptAt t i) :
    i.accumulate_and_reset t = (i, 0) := by
  rcases i with ⟨tab, ta, lo⟩
  obtain ⟨h0, hlo⟩ := h
  simp only [TabInstance.time_active] at h0
  subst h0
  rcases hlo with hlo | hlo <;>
    simp only [TabInstance.last_opened] at hlo <;>
    subst hlo <;>
    simp [TabInstance.accumulate_and_reset, satSub, satAdd_zero_zero]

theorem accumLoop_swept (t : Nat) (l : List TabInstance) (acc act : Nat) :
    ∀ i ∈ (accumLoop t l acc act).1, sweptAt t i := by
  induction l generalizing acc act with
  | nil => simp [accumLoop]
  | cons j rest ih =>
      intro i hi
      simp only [accumLoop] at hi
      rcases hrec : accumLoop t rest
          (satAdd acc (j.accumulate_and_reset t).2)
          (if j.is_active then act + 1 else act) with ⟨rest', tot', act'⟩
      rw [hrec] at hi
      simp only [List.mem_cons] at hi
      rcases hi with hi | hi
      · subst hi; exact accumulate_and_reset_swept t j
      · have := ih (satAdd acc (j.accumulate_and_reset t).2)
          (if j.is_active then act + 1 else act) i
        rw [hrec] at this
        exact this hi

theorem accumLoop_of_swept (t : Nat) (l : List TabInstance)
    (h : ∀ i ∈ l, sweptAt t i) (act : Nat) :
    ∃ act', accumLoop t l 0 act = (l, 0, act') := by
  induction l generalizing act with
  | nil => exact ⟨act, rfl⟩
  | cons j rest ih =>
      have hj := h j (List.mem_cons_self j rest)
      have hrest : ∀ i ∈ rest, sweptAt t i := fun i hi => h i (List.mem_cons_of_mem j hi)
      obtain ⟨act', hrec⟩ := ih hrest (if j.is_active then act + 1 else act)
      refine ⟨act', ?_⟩
      simp [accumLoop, accumulate_and_reset_of_swept t j hj, satAdd_zero_zero, hrec]

mutual

theorem update_node_times_idem (t : Nat) :
    (n : UrlNode) → update_node_times t (update_node_times t n) = update_node_times t n
  | .mk s a inst ch => by
      rcases hacc : accumLoop t inst 0 0 with ⟨inst1, tot1, act1⟩
      have hswept : ∀ i ∈ inst1, sweptAt t i := by
        have := accumLoop_swept t inst 0 0
        rw [hacc] at this
        exact this
      obtain ⟨act2, hacc2⟩ := accumLoop_of_swept t inst1 hswept 0
      simp [update_node_times, hacc, hacc2,
        satAdd_zero_right _ (satAdd_le_max a tot1), updateChildren_idem t ch]

theorem updateChildren_idem (t : Nat) :
    (l : List (String × UrlNode)) → updateChildren t (updateChildren t l) = updateChildren t l
  | [] => by simp [updateChildren]
  | (k, c) :: rest => by
      simp [updateChildren, update_node_times_idem t c, updateChildren_idem t rest]

end

/-! ## Serialization round-trip helper lemmas -/

mutual

theorem into_url_node_toSerializedFull :
    (n : UrlNode) → (toSerializedFull n).into_url_node false = n
  | .mk s a inst ch => by
      simp [toSerializedFull, SerializedUrlNode.into_url_node,
        intoUrlNodeChildren_toSerializedFull ch]

theorem intoUrlNodeChildren_toSerializedFull :
    (l : List (String × UrlNode)) → intoUrlNodeChildren (toSerializedFullChildren l) false = l
  | [] => by simp [toSerializedFullChildren, intoUrlNodeChildren]
  | (k, c) :: rest => by
      simp [toSerializedFullChildren, intoUrlNodeChildren,
        into_url_node_toSerializedFull c, intoUrlNodeChildren_toSerializedFull rest]

end

theorem intoUrlNodeChildren_eq_map (l : List (String × SerializedUrlNode)) (b : Bool) :
    intoUrlNodeChildren l b = l.map (fun kv => (kv.1, kv.2.into_url_node b)) := by
  induction l with
  | nil => simp [intoUrlNodeChildren]
  | cons kv rest ih => rcases kv with ⟨k, c⟩; simp [intoUrlNodeChildren, ih]

/-! ## Pruned/full snapshot helper lemmas -/

mutual

theorem withoutInstances_pruned :
    (n : UrlNode) → serializedNodePruned (withoutInstances n) = true
  | .mk s a inst ch => by
      simp [withoutInstances, serializedNodePruned, withoutInstancesChildren_pruned ch]

theorem withoutInstancesChildren_pruned :
    (l : List (String × UrlNode)) → serializedChildrenPruned (withoutInstancesChildren l) = true
  | [] => by simp [withoutInstancesChildren, serializedChildrenPruned]
  | (k, c) :: rest => by
      simp [withoutInstancesChildren, serializedChildrenPruned,
        withoutInstances_pruned c, withoutInstancesChildren_pruned rest]

end

mutual

theorem toSerializedFull_full :
    (n : UrlNode) → serializedNodeFull (toSerializedFull n) = true
  | .mk s a inst ch => by
      simp [toSerializedFull, serializedNodeFull, toSerializedFullChildren_full ch]

theorem toSerializedFullChildren_full :
    (l : List (String × UrlNode)) → serializedChildrenFull (toSerializedFullChildren l) = true
  | [] => by simp [toSerializedFullChildren, serializedChildrenFull]
  | (k, c) :: rest => by
      simp [toSerializedFullChildren, serializedChildrenFull,
        toSerializedFull_full c, toSerializedFullChildren_full rest]

end

/-! ## Association-list and path-update helper lemmas -/

theorem assocGet_cons (k p : String) (v : UrlNode) (rest : List (String × UrlNode)) :
    assocGet ((k, v) :: rest) p = if k = p then some v else assocGet rest p := by
  by_cases h : k = p
  · rw [if_pos h]
    unfold assocGet
    rw [List.find?_cons_of_pos _ (by simpa using h)]
    rfl
  · rw [if_neg h]
    unfold assocGet
    rw [List.find?_cons_of_neg _ (by simpa using h)]

theorem assocSet_self (m : List (String × UrlNode)) (p : String) (n : UrlNode)
    (h : assocGet m p = some n) : assocSet m p n = m := by
  induction m with
  | nil => simp [assocGet] at h
  | cons kv rest ih =>
      rcases kv with ⟨k, v⟩
      rw [assocGet_cons] at h
      by_cases hk : k = p
      · subst hk
        rw [if_pos rfl] at h
        have : v = n := by injection h
        subst this
        simp [assocSet]
      · rw [if_neg hk] at h
        simp [assocSet, hk]
        exact ih h

theorem findAtPath_cons (p : String) (rest : List String) (m : List (String × UrlNode)) :
    findAtPath (p :: rest) m =
      match assocGet m p with
      | some n => if rest.isEmpty then some n else findAtPath rest n.children
      | none => none := by
  rfl

theorem tryModifyAtPath_cons (f : UrlNode → Option UrlNode) (p : String)
    (rest : List String) (m : List (String × UrlNode)) :
    tryModifyAtPath f (p :: rest) m =
      match assocGet m p with
      | some n =>
          if rest.isEmpty then (f n).map (fun n' => assocSet m p n')
          else (tryModifyAtPath f rest n.children).map (fun ch' => assocSet m p (n.withChildren ch'))
      | none => none := by
  rfl

theorem tryModifyAtPath_self (f : UrlNode → Option UrlNode) :
    ∀ (parts : List String) (m : List (String × UrlNode)) (n : UrlNode),
      findAtPath parts m = some n → f n = some n →
      tryModifyAtPath f parts m = some m := by
  intro parts
  induction parts with
  | nil => intro m n h _; simp [findAtPath] at h
  | cons p rest ih =>
      intro m n h hf
      rcases hget : assocGet m p with _ | n'
      · simp only [findAtPath_cons, hget] at h; exact absurd h (by simp)
      · simp only [findAtPath_cons, hget] at h
        rw [tryModifyAtPath_cons]
        simp only [hget]
        by_cases hrest : rest.isEmpty
        · rw [if_pos hrest] at h
          have hn : n' = n := by injection h
          subst hn
          rw [if_pos hrest, hf, Option.map_some']
          rw [assocSet_self m p n' hget]
        · rw [if_neg hrest] at h
          have hrec := ih n'.children n h hf
          rw [if_neg hrest, hrec, Option.map_some']
          rw [UrlNode.withChildren_self, assocSet_self m p n' hget]

theorem updateFirstInstance_self (tab_id : Nat) (f : TabInstance → TabInstance) :
    ∀ (l : List TabInstance) (i : TabInstance),
      l.find? (fun j => j.tab_id == tab_id) = some i → f i = i →
      updateFirstInstance tab_id f l = some l := by
  intro l
  induction l with
  | nil => intro i h _; simp at h
  | cons j rest ih =>
      intro i h hf
      by_cases hj : j.tab_id = tab_id
      · rw [List.find?_cons_of_pos _ (by simpa using hj)] at h
        have : j = i := by injection h
        subst this
        simp [updateFirstInstance, hj, hf]
      · rw [List.find?_cons_of_neg _ (by simpa using hj)] at h
        simp [updateFirstInstance, hj, ih i h hf]

/-! ## Claim theorems -/

/-- C4: for every node and every timestamp `t`, running the aggregation
sweep twice at `t` with no intervening tab events produces the same node
— in particular the same `aggregate_time` — as a single sweep at `t`:
repeated sweeps add zero additional time. -/
theorem claim_sweep_idempotent (n : UrlNode) (t : Nat) :
    update_node_times t (update_node_times t n) = update_node_times t n :=
  update_node_times_idem t n

/-- C3 (amended): restoring (`from_serialized`, `fresh = false`) the data
of a full snapshot (`serialize_session` with `include_tabs = true`)
reproduces exactly the tree as it stands after the snapshot's aggregation
sweep — the tracker state `serialize_session` itself leaves behind — with
the same aggregate times and instance sets as that post-sweep tree. -/
theorem claim_restore_full_snapshot (tr : Tracker) (name : String) (t : Nat) :
    Tracker.from_serialized name (tr.serialize_session true t).2.data false
      = ⟨(tr.serialize_session true t).1.root, name⟩ := by
  rcases tr with ⟨root, sname⟩
  simp only [Tracker.serialize_session, Tracker.from_serialized, if_pos]
  rw [← intoUrlNodeChildren_eq_map]
  rw [intoUrlNodeChildren_toSerializedFull]

/-- C3 (counterexample): the restored tree is not the tree as it was
before the snapshot was taken: on a tracker holding one instance active
since time `0`, a full snapshot at time `5` sweeps 5 ms into the node's
aggregate, so the restored node carries aggregate time `5` while the
pre-snapshot node carried `0`. -/
theorem claim_restore_full_snapshot_counterexample :
    ((findAtPath ["example.com"]
        (Tracker.from_serialized "work"
          (exTracker.serialize_session true 5).2.data false).root).map
      UrlNode.aggregate_time) = some 5
    ∧ ((findAtPath ["example.com"] exTracker.root).map UrlNode.aggregate_time) = some 0 := by
  constructor
  · simp [exTracker, Tracker.serialize_session, Tracker.from_serialized, updateChildren,
      update_node_times, accumLoop, TabInstance.accumulate_and_reset, TabInstance.is_active,
      satAdd, satSub, U64_MAX, toSerializedFullChildren, toSerializedFull,
      SerializedUrlNode.into_url_node, intoUrlNodeChildren, findAtPath, assocGet, List.find?]
  · simp [exTracker, findAtPath, assocGet, List.find?]

/-- C9: on clean end-of-file the host persists the active tracker's
snapshot without instances (pruned, `serialize_session(false)`), whereas
on a process interrupt it persists the snapshot with instances (full,
`serialize_session(true)`) — the pruned/full asymmetry between the two
termination paths, with the signal handler modelled as the state
transformation it performs. -/
theorem claim_termination_asymmetry (tr : Tracker) (t : Nat) :
    run_termination (some tr) Termination.eof t = some (tr.serialize_session false t).2
    ∧ sessionPruned (tr.serialize_session false t).2 = true
    ∧ run_termination (some tr) Termination.interrupt t = some (tr.serialize_session true t).2
    ∧ sessionFull (tr.serialize_session true t).2 = true := by
  refine ⟨rfl, ?_, rfl, ?_⟩
  · simp [Tracker.serialize_session, sessionPruned, withoutInstancesChildren_pruned]
  · simp [Tracker.serialize_session, sessionFull, toSerializedFullChildren_full]

/-- C6: `load_session(name)` fails with `SessionNotFound` if and only if
the session file is absent; when the file exists but its embedded
`session_name` differs from the requested name it fails with a
serialization error; and on success the returned snapshot's embedded name
equals the requested name (and is exactly the stored one). -/
theorem claim_load_session_spec (fs : FileStore) (name : String) :
    (load_session fs name = .error (.sessionNotFound name) ↔ fs name = none)
    ∧ (∀ s, fs name = some (.session s) → s.session_name ≠ name →
        load_session fs name = .error (.jsonSerialization (sessionMismatchMsg name s.session_name)))
    ∧ (∀ s, load_session fs name = .ok s →
        s.session_name = name ∧ fs name = some (.session s)) := by
  refine ⟨⟨?_, ?_⟩, ?_, ?_⟩
  · intro h
    rcases hfs : fs name with _ | c
    · rfl
    · rcases c with s | _
      · rw [load_session, hfs] at h
        by_cases hn : s.session_name ≠ name <;> simp [hn] at h
      · rw [load_session, hfs] at h
        simp at h
  · intro h
    rw [load_session, h]
  · intro s hfs hn
    rw [load_session, hfs]
    simp [hn]
  · intro s h
    rcases hfs : fs name with _ | c
    · rw [load_session, hfs] at h
      simp at h
    · rcases c with s' | _
      · simp only [load_session, hfs] at h
        by_cases hn : s'.session_name = name
        · rw [if_neg (fun hx => hx hn)] at h
          have : s' = s := by injection h
          subst this
          exact ⟨hn, rfl⟩
        · rw [if_pos hn] at h
          exact absurd h (by simp)
      · simp only [load_session, hfs] at h
        simp at h

/-- The empty session directory. -/
def fsEmpty : FileStore := fun _ => none

/-- C6 (witness): loading from an empty directory fails with
`SessionNotFound`. -/
theorem claim_load_session_witness :
    load_session fsEmpty "work" = .error (.sessionNotFound "work") :=
  (claim_load_session_spec fsEmpty "work").1.mpr rfl

/-- C7: receiving a framed message fails with `MessageTooLarge` exactly
when the declared 4-byte little-endian length exceeds 1 MiB, fails with
`InvalidLength` exactly when the declared length is `0`, and any short
read — of the header or of the body — surfaces as the fatal
`Io(UnexpectedEof)` stream error. -/
theorem claim_read_message_spec {α : Type} (decode : List Nat → Except Unit α)
    (b0 b1 b2 b3 : Nat) (rest : List Nat) :
    (read_message decode (b0 :: b1 :: b2 :: b3 :: rest)
        = .error (.messageTooLarge (le32 b0 b1 b2 b3))
      ↔ le32 b0 b1 b2 b3 > MAX_MESSAGE_SIZE)
    ∧ (read_message decode (b0 :: b1 :: b2 :: b3 :: rest)
        = .error (.invalidLength (le32 b0 b1 b2 b3))
      ↔ le32 b0 b1 b2 b3 = 0)
    ∧ (∀ short : List Nat, short.length < 4 →
        read_message decode short = .error (.ioError IoErrorKind.unexpectedEof))
    ∧ (le32 b0 b1 b2 b3 ≤ MAX_MESSAGE_SIZE → le32 b0 b1 b2 b3 ≠ 0 →
        rest.length < le32 b0 b1 b2 b3 →
        read_message decode (b0 :: b1 :: b2 :: b3 :: rest)
          = .error (.ioError IoErrorKind.unexpectedEof)) := by
  refine ⟨⟨?_, ?_⟩, ⟨?_, ?_⟩, ?_, ?_⟩
  · intro h
    by_cases h1 : le32 b0 b1 b2 b3 > MAX_MESSAGE_SIZE
    · exact h1
    · exfalso
      rw [read_message] at h
      simp only [if_neg h1] at h
      by_cases h2 : le32 b0 b1 b2 b3 = 0
      · simp [h2] at h
      · simp only [if_neg h2] at h
        by_cases h3 : rest.length < le32 b0 b1 b2 b3
        · simp [h3] at h
        · simp only [if_neg h3] at h
          rcases hd : decode (rest.take (le32 b0 b1 b2 b3)) with _ | v <;> simp [hd] at h
  · intro h
    rw [read_message]
    simp [h]
  · intro h
    by_cases h1 : le32 b0 b1 b2 b3 = 0
    · exact h1
    · exfalso
      rw [read_message] at h
      by_cases h0 : le32 b0 b1 b2 b3 > MAX_MESSAGE_SIZE
      · simp [h0] at h
      · simp only [if_neg h0, if_neg h1] at h
        by_cases h3 : rest.length < le32 b0 b1 b2 b3
        · simp [h3] at h
        · simp only [if_neg h3] at h
          rcases hd : decode (rest.take (le32 b0 b1 b2 b3)) with _ | v <;> simp [hd] at h
  · intro h
    rw [read_message]
    have h0 : ¬ le32 b0 b1 b2 b3 > MAX_MESSAGE_SIZE := by
      rw [h]; simp [MAX_MESSAGE_SIZE]
    simp [h0, h]
  · intro short hlen
    rcases short with _ | ⟨a0, _ | ⟨a1, _ | ⟨a2, _ | ⟨a3, tail⟩⟩⟩⟩
    · rfl
    · rfl
    · rfl
    · rfl
    · exfalso
      simp only [List.length_cons] at hlen
      omega
  · intro h0 h1 h3
    rw [read_message]
    simp only [if_neg (by omega : ¬ le32 b0 b1 b2 b3 > MAX_MESSAGE_SIZE), if_neg h1, if_pos h3]

/-- A JSON decoder that rejects every payload (its result is irrelevant
to the framing checks). -/
def decodeNone : List Nat → Except Unit Unit := fun _ => .error ()

/-- C7 (witness): a declared length of `0x00110000 = 1114112 > 1 MiB`
fails with `MessageTooLarge`; a 2-byte stream fails with the end-of-file
stream error. -/
theorem claim_read_message_witness :
    read_message decodeNone [0, 0, 17, 0] = .error (.messageTooLarge 1114112)
    ∧ read_message decodeNone [7, 7] = .error (.ioError IoErrorKind.unexpectedEof) :=
  ⟨(claim_read_message_spec decodeNone 0 0 17 0 []).1.mpr (by decide),
   (claim_read_message_spec decodeNone 0 0 0 0 []).2.2.1 [7, 7] (by decide)⟩

/-- C8 (amended): session-name validation accepts a name if and only if
it is non-empty, at most 100 UTF-8 bytes long (Rust `str::len` counts
bytes, which coincides with characters only for ASCII names), and
contains none of the characters `/ \ : * ? " < > |` and NUL. -/
theorem claim_verify_session_name_spec (s : String) :
    verify_session_name s = .ok () ↔
      (¬ s.isEmpty ∧ s.utf8ByteSize ≤ 100 ∧ ∀ c ∈ s.data, c ∉ invalid_chars) := by
  constructor
  · intro h
    unfold verify_session_name at h
    by_cases h1 : s.isEmpty
    · simp [h1] at h
    · rw [if_neg h1] at h
      by_cases h2 : s.utf8ByteSize > 100
      · simp [h2] at h
      · rw [if_neg h2] at h
        by_cases h3 : s.data.any (fun c => invalid_chars.contains c)
        · rw [if_pos h3] at h
          exact absurd h (by simp)
        · refine ⟨h1, by omega, ?_⟩
          intro c hc hmem
          exact h3 (List.any_eq_true.mpr ⟨c, hc, by simpa using hmem⟩)
  · rintro ⟨h1, h2, h3⟩
    unfold verify_session_name
    rw [if_neg h1, if_neg (by omega), if_neg ?_]
    intro hany
    obtain ⟨c, hc, hcont⟩ := List.any_eq_true.mp hany
    exact h3 c hc (by simpa using hcont)

/-- C8 (witness): the name `work` passes validation. -/
theorem claim_verify_session_name_witness : verify_session_name "work" = .ok () :=
  (claim_verify_session_name_spec "work").mpr (by decide)

/-- A 51-character name of two-byte characters: 102 UTF-8 bytes. -/
def multibyteName : String := String.mk (List.replicate 51 'é')

/-- C8 (counterexample): `multibyteName` is non-empty, 51 characters long
(so within the claimed 100-character limit) and contains no forbidden
character, yet validation rejects it, because the source measures the
name in UTF-8 bytes (102 here), not characters. -/
theorem claim_verify_session_name_counterexample :
    verify_session_name multibyteName
      = .error (.invalidSessionName "Session name is too long. Allowed length: 100 characters")
    ∧ multibyteName.length = 51
    ∧ ¬ multibyteName.isEmpty
    ∧ (∀ c ∈ multibyteName.data, c ∉ invalid_chars)
    ∧ multibyteName.utf8ByteSize = 102 := by
  refine ⟨?_, by decide, by decide, by decide, by decide⟩
  decide

/-- The host-followed-by-long-segments part sequence `parse_url_parts`
extracts from a parsed URL. -/
def urlParts (u : Url) : List String :=
  (match u.host_str with
   | some host => [host]
   | none => []) ++
  (match u.path_segments with
   | some segments => segments.filter (fun segment => segment.length > 1)
   | none => [])

/-- C5 (amended): for every parser and every input string, URL parsing
yields the host followed by each path segment of length greater than 1
(shorter segments are filtered out), and fails exactly when the string is
empty (`InvalidUrl`), does not parse as a URL (the distinct
`UrlParseError` variant wrapping the parser's error, not `InvalidUrl`),
or yields no usable segments (`InvalidUrl`). -/
theorem claim_parse_url_parts_spec (urlParse : String → Except UrlParseError Url)
    (url : String) :
    (url = "" → parse_url_parts urlParse url = .error (.invalidUrl "Empty URL"))
    ∧ (∀ e, url ≠ "" → urlParse url = .error e →
        parse_url_parts urlParse url = .error (.urlParseError e))
    ∧ (∀ u, url ≠ "" → urlParse url = .ok u → urlParts u = [] →
        parse_url_parts urlParse url
          = .error (.invalidUrl ("No parseable parts in URL: " ++ url)))
    ∧ (∀ u, url ≠ "" → urlParse url = .ok u → urlParts u ≠ [] →
        parse_url_parts urlParse url = .ok (urlParts u)) := by
  refine ⟨?_, ?_, ?_, ?_⟩
  · intro h; subst h; rfl
  · intro e h he
    have h1 : ¬ url.isEmpty := by simpa [String.isEmpty_iff] using h
    simp only [parse_url_parts, if_neg h1, he]
  · intro u h hu hparts
    have h1 : ¬ url.isEmpty := by simpa [String.isEmpty_iff] using h
    have : urlParts u = [] → (urlParts u).isEmpty := by
      intro hx; simp [hx]
    simp only [parse_url_parts, if_neg h1, hu]
    rw [if_pos]
    have := hparts
    simp only [urlParts] at this
    simpa [List.isEmpty_iff] using this
  · intro u h hu hparts
    have h1 : ¬ url.isEmpty := by simpa [String.isEmpty_iff] using h
    simp only [parse_url_parts, if_neg h1, hu]
    rw [if_neg]
    · rfl
    · have := hparts
      simp only [urlParts] at this
      simpa [List.isEmpty_iff] using this

/-- C5 (witness): `https://example.com/a/b` parses to `["example.com"]`
(the length-1 segments `a` and `b` are filtered out), and the empty
string fails with `InvalidUrl`. -/
theorem claim_parse_url_parts_witness :
    parse_url_parts urlParseExample "https://example.com/a/b" = .ok ["example.com"]
    ∧ parse_url_parts urlParseExample "" = .error (.invalidUrl "Empty URL") :=
  ⟨(claim_parse_url_parts_spec urlParseExample "https://example.com/a/b").2.2.2
      ⟨some "example.com", some ["a", "b"]⟩ (by decide) (by decide) (by decide),
   (claim_parse_url_parts_spec urlParseExample "").1 rfl⟩

/-- C5 (counterexample): a string that fails to parse as a URL (the
spec's own example `not-a-url`) makes `parse_url_parts` fail with the
`UrlParseError` variant, not with `InvalidUrl` as the claim states. -/
theorem claim_parse_url_parts_counterexample :
    parse_url_parts urlParseExample "not-a-url"
      = .error (.urlParseError ⟨"relative URL without a base"⟩)
    ∧ TrackerError.isInvalidUrlVariant
        (.urlParseError ⟨"relative URL without a base"⟩) = false :=
  ⟨rfl, rfl⟩

/-- C10: in every tracker state where the node for the URL's parsed path
and the instance for the `tab_id` both exist but the instance is inactive
(`last_opened = None`), `track_tab_unfocused` returns `Ok` and leaves the
entire tree unchanged: unfocusing an already-unfocused tab is accepted
silently (never `TabNotFound`) and is a no-op, making unfocus idempotent. -/
theorem claim_unfocus_inactive_noop (urlParse : String → Except UrlParseError Url)
    (root : List (String × UrlNode)) (name url : String) (tab_id t : Nat)
    (parts : List String) (n : UrlNode) (i : TabInstance)
    (hp : parse_url_parts urlParse url = .ok parts)
    (hn : findAtPath parts root = some n)
    (hi : n.instances.find? (fun j => j.tab_id == tab_id) = some i)
    (hina : i.last_opened = none) :
    Tracker.track_tab_unfocused urlParse ⟨root, name⟩ url tab_id t = .ok ⟨root, name⟩ := by
  have hfi : i.accumulate_time t = i := by
    rcases i with ⟨tid, ta, lo⟩
    simp only [TabInstance.last_opened] at hina
    subst hina
    rfl
  have hupd := updateFirstInstance_self tab_id (fun j => j.accumulate_time t) n.instances i hi hfi
  have hfn : (updateFirstInstance tab_id (fun j => j.accumulate_time t) n.instances).map
      n.withInstances = some n := by
    rw [hupd, Option.map_some', UrlNode.withInstances_self]
  have hmod := tryModifyAtPath_self
    (fun m => (updateFirstInstance tab_id (fun j => j.accumulate_time t) m.instances).map
      m.withInstances) parts root n hn hfn
  simp only [Tracker.track_tab_unfocused, hp, hmod]

/-- C10 (witness): unfocusing the already-inactive tab `1` of
`example.com` succeeds and leaves the tracker untouched. -/
theorem claim_unfocus_inactive_witness :
    Tracker.track_tab_unfocused urlParseExample exTrackerInactive "https://example.com" 1 9
      = .ok exTrackerInactive :=
  claim_unfocus_inactive_noop urlParseExample exTrackerInactive.root "work"
    "https://example.com" 1 9 ["example.com"]
    (UrlNode.mk "example.com" 3 [⟨1, 7, none⟩] []) ⟨1, 7, none⟩ rfl rfl rfl rfl

/-- C1 (code-bug exhibit): with an active tracker whose report is
non-empty, `handle_get_data_action` still answers `success = true` with
`data = none` — `with_tracker_mut` maps `Ok(_)` to `success(None)`,
discarding the collected report, and `map_success` never attaches it —
while with no active tracker it answers the `Tracker not started` error.
The sweep itself does run: the returned tracker is the swept one. -/
theorem claim_get_data_drops_report :
    handle_get_data_action (some exTracker) 5
      = (some ⟨[("example.com", .mk "example.com" 5 [⟨1, 0, some 5⟩] [])], "work"⟩,
         { success := true, data := none, error := none })
    ∧ (exTracker.collect_tracking_data 5).2 = [⟨"example.com", 5, 1, 1⟩]
    ∧ handle_get_data_action none 5
      = (none, { success := false, data := none, error := some "Tracker not started" }) := by
  refine ⟨?_, ?_, rfl⟩
  · simp [handle_get_data_action, with_tracker_mut, OutgoingMessage.map_success,
      OutgoingMessage.successMsg, Tracker.collect_tracking_data, exTracker, collectList,
      accumLoop, TabInstance.accumulate_and_reset, TabInstance.is_active, satAdd, satSub,
      U64_MAX, String.isEmpty]
  · simp [Tracker.collect_tracking_data, exTracker, collectList, accumLoop,
      TabInstance.accumulate_and_reset, TabInstance.is_active, satAdd, satSub, U64_MAX,
      String.isEmpty]

/-- C2 (counterexample): after `track_tab_focused("https://example.com/a/b", 1)`
at time `0`, the report collected at time `0` contains no record at all
(zero-aggregate nodes are omitted), and the report collected at time `5`
contains one record whose path is `example.com` — the length-1 segments
`a` and `b` were filtered out — so no record with path
`example.com/a/b` ever appears. -/
theorem claim_focus_report_counterexample :
    Tracker.track_tab_focused urlParseExample (Tracker.new "work")
        "https://example.com/a/b" 1 0 = .ok exTracker
    ∧ (exTracker.collect_tracking_data 0).2 = []
    ∧ (exTracker.collect_tracking_data 5).2 = [⟨"example.com", 5, 1, 1⟩]
    ∧ (exTracker.collect_tracking_data 5).2.all
        (fun r => r.path ≠ "example.com/a/b") = true := by
  have hcollect : (exTracker.collect_tracking_data 5).2 = [⟨"example.com", 5, 1, 1⟩] := by
    simp [Tracker.collect_tracking_data, exTracker, collectList, accumLoop,
      TabInstance.accumulate_and_reset, TabInstance.is_active, satAdd, satSub, U64_MAX,
      String.isEmpty]
  refine ⟨rfl, ?_, hcollect, ?_⟩
  · simp [Tracker.collect_tracking_data, exTracker, collectList, accumLoop,
      TabInstance.accumulate_and_reset, TabInstance.is_active, satAdd, satSub, U64_MAX,
      String.isEmpty]
  · rw [hcollect]; decide

/-- C2 (amended): after a successful `track_tab_focused` on
`https://example.com/a/b` with some tab id at time `t0` into a fresh
tracker, the resulting node sits at path `example.com` (segments of
length ≤ 1 are filtered out); the report contains no record for it while
no time has elapsed, and a report collected at a later time `t1` holds
exactly one record, with path `example.com` and positive aggregate time
`t1 - t0`, one total and one active instance. -/
theorem claim_focus_report_spec (tab_id t0 t1 : Nat) (h01 : t0 < t1) (h1 : t1 ≤ U64_MAX) :
    Tracker.track_tab_focused urlParseExample (Tracker.new "work")
        "https://example.com/a/b" tab_id t0
      = .ok ⟨[("example.com", UrlNode.mk "example.com" 0 [⟨tab_id, 0, some t0⟩] [])], "work"⟩
    ∧ ((⟨[("example.com", UrlNode.mk "example.com" 0 [⟨tab_id, 0, some t0⟩] [])], "work"⟩ :
          Tracker).collect_tracking_data t0).2 = []
    ∧ ((⟨[("example.com", UrlNode.mk "example.com" 0 [⟨tab_id, 0, some t0⟩] [])], "work"⟩ :
          Tracker).collect_tracking_data t1).2 = [⟨"example.com", t1 - t0, 1, 1⟩] := by
  have hsub : t1 - t0 ≤ U64_MAX := le_trans (Nat.sub_le t1 t0) h1
  have hpos : 0 < t1 - t0 := Nat.sub_pos_of_lt h01
  refine ⟨rfl, ?_, ?_⟩
  · simp [Tracker.collect_tracking_data, collectList, accumLoop,
      TabInstance.accumulate_and_reset, TabInstance.is_active, satSub, Nat.sub_self,
      satAdd_zero_zero, String.isEmpty]
  · simp [Tracker.collect_tracking_data, collectList, accumLoop,
      TabInstance.accumulate_and_reset, TabInstance.is_active, satSub,
      satAdd_zero_left _ hsub, hpos, String.isEmpty]

/-- C2 (witness): the amended statement at tab id `7`, focus time `2`,
report time `10`. -/
theorem claim_focus_report_witness :
    Tracker.track_tab_focused urlParseExample (Tracker.new "work")
        "https://example.com/a/b" 7 2
      = .ok ⟨[("example.com", UrlNode.mk "example.com" 0 [⟨7, 0, some 2⟩] [])], "work"⟩
    ∧ ((⟨[("example.com", UrlNode.mk "example.com" 0 [⟨7, 0, some 2⟩] [])], "work"⟩ :
          Tracker).collect_tracking_data 2).2 = []
    ∧ ((⟨[("example.com", UrlNode.mk "example.com" 0 [⟨7, 0, some 2⟩] [])], "work"⟩ :
          Tracker).collect_tracking_data 10).2 = [⟨"example.com", 8, 1, 1⟩] :=
  claim_focus_report_spec 7 2 10 (by decide) (by decide)

end BrowserTimer
